import Mathlib

/-
Shallow embedding of the OrdDeFi-Inscribe wallet core:
  * `src/subcommand/wallet/transaction_builder.rs` — the ordinal-aware
    transaction builder (`TransactionBuilder`), its pipeline
    `select_outgoing → align_outgoing → pad_alignment_output → add_value →
    strip_value → deduct_fee → build`, and the cardinal-UTXO selection
    heuristic `select_cardinal_utxo`;
  * `src/subcommand/wallet/commit_gen_addr.rs` — hex private-key parsing for
    commit-address derivation (`bytes_from_hex_string`, `key_pair_from_str`).

Modelling conventions:
  * `bitcoin::Amount` is a `u64` count of satoshis whose `+`, `-`, `+=`, `-=`
    and `sum` implementations panic on overflow/underflow, while
    `checked_add`/`checked_sub` return `Option`.  Amounts are modelled as
    `Nat` with the `u64` bound made explicit (`U64LIMIT`); the panicking
    operations are `amt_add`/`amt_sub`/`amt_sum` below.
  * Raw `u64` arithmetic (the `sat_offset` and `output_end` accumulators)
    wraps modulo `2 ^ 64` in release builds; the accumulators below reduce
    modulo `U64LIMIT` accordingly.
  * Rust panics (failing `assert!`/`assert_eq!` macros, `.unwrap()` /
    `.expect(..)` on `None`, out-of-bounds indexing, the `panic!` macro and
    map-index panics) are the `Failure.crashed` outcome; typed
    `transaction_builder::Error` values are `Failure.err`.
  * The bitcoin-library collaborators (`Address::script_pubkey`,
    `Script::dust_value`, `FeeRate::fee`, placeholder-transaction `vsize`)
    are not part of this repository; they are abstracted as the fields of
    `Env`.  Addresses, scripts, outpoints and inscription ids are opaque
    naturals.
  * `BTreeMap`/`BTreeSet` are association lists / lists; the only
    order-sensitive consumer is the iteration in `select_cardinal_utxo` and
    the `.rev()` iteration in `select_outgoing`, both mirrored on lists.
-/

/-- Exclusive upper bound of Rust's `u64`, the representation of
`bitcoin::Amount` and of raw satoshi arithmetic in the builder. -/
def U64LIMIT : Nat := 2 ^ 64

/-- A `SatPoint` from the source: an outpoint (opaque id) plus the byte
offset of one satoshi inside that output's value range. -/
structure SatPoint where
  outpoint : Nat
  offset : Nat
  deriving DecidableEq, Repr

/-- The `Target` policy enum of `transaction_builder.rs` (lines 58-63). -/
inductive Target where
  | Value (amount : Nat)
  | Postage
  | ExactPostage (amount : Nat)
  deriving DecidableEq, Repr

/-- The typed `Error` enum of `transaction_builder.rs` (lines 40-56). -/
inductive Error where
  | DuplicateAddress (address : Nat)
  | Dust (output_value dust_value : Nat)
  | NotEnoughCardinalUtxos
  | NotInWallet (outgoing_satpoint : SatPoint)
  | OutOfRange (outgoing_satpoint : SatPoint) (maximum : Nat)
  | UtxoContainsAdditionalInscription (outgoing_satpoint inscribed_satpoint : SatPoint)
      (inscription_id : Nat)
  | ValueOverflow
  deriving DecidableEq, Repr

/-- How a pipeline stage can fail: with a typed `Error` (Rust `Err(..)`),
or with a Rust panic (`assert!` failure, `.unwrap()` on `None`, ...). -/
inductive Failure where
  | err (e : Error)
  | crashed
  deriving DecidableEq, Repr

/-- Result of a stage: a value, a typed error, or a panic. -/
abbrev Res (α : Type) : Type := Except Failure α

theorem res_bind_error {α β : Type} (e : Failure) (f : α → Res β) :
    (Except.error e >>= f : Res β) = Except.error e := rfl

theorem res_bind_ok_left {α β : Type} (a : α) (f : α → Res β) :
    (Except.ok a >>= f : Res β) = f a := rfl

theorem res_bind_ok {α β : Type} {x : Res α} {f : α → Res β} {c : β}
    (h : (x >>= f) = .ok c) : ∃ a, x = .ok a ∧ f a = .ok c := by
  cases x with
  | error e => rw [res_bind_error] at h; exact Except.noConfusion h
  | ok a => rw [res_bind_ok_left] at h; exact ⟨a, rfl, h⟩

/-- The bitcoin-library collaborators used by the builder, abstracted:
`spk` is `Address::script_pubkey`, `dust_value` is `Script::dust_value`,
`fee` is `FeeRate::fee` (of a vbyte count), `vsize` is the virtual size of
the placeholder transaction built by `estimate_vbytes_with` from an input
count and the output addresses, and `op_return_script` is the script built
from `OP_RETURN` and the `orddefi:auth` payload in `build`. -/
structure Env where
  spk : Nat → Nat
  dust_value : Nat → Nat
  fee : Nat → Nat
  vsize : Nat → List Nat → Nat
  op_return_script : Nat

/-- The `TransactionBuilder` state (lines 94-109).  `amounts` is the
`BTreeMap<OutPoint, Amount>` as an association list, `outputs` pairs an
address with an amount, and the `fee_rate` field lives in `Env.fee`. -/
structure TransactionBuilder where
  amounts : List (Nat × Nat)
  change_addresses : Nat
  inputs : List Nat
  inscriptions : List (SatPoint × Nat)
  locked_utxos : List Nat
  outgoing : SatPoint
  outputs : List (Nat × Nat)
  recipient : Nat
  runic_utxos : List Nat
  target : Target
  unused_change_addresses : List Nat
  utxos : List Nat
  deriving DecidableEq, Repr

/-- A built transaction: `output` entries are `(value, script_pubkey)`
pairs, mirroring `TxOut` (line 452). -/
structure Transaction where
  version : Nat
  lock_time : Nat
  input : List Nat
  output : List (Nat × Nat)
  deriving DecidableEq, Repr

def TransactionBuilder.ADDITIONAL_INPUT_VBYTES : Nat := 58

def TransactionBuilder.ADDITIONAL_OUTPUT_VBYTES : Nat := 43

/-- `MAX_POSTAGE = 2 * 10_000` sats (line 117). -/
def TransactionBuilder.MAX_POSTAGE : Nat := 2 * 10000

/-- The crate-level `TARGET_POSTAGE` constant, defined outside the provided
source files; its value of 10,000 sats is documented by the module doc
comment of `transaction_builder.rs` (line 18). -/
def TARGET_POSTAGE : Nat := 10000

/-- Lookup in the `amounts` map (`BTreeMap::get`). -/
def lookupAmt (amounts : List (Nat × Nat)) (k : Nat) : Option Nat :=
  (amounts.find? (fun p => p.1 == k)).map (fun p => p.2)

/-- Panicking `bitcoin::Amount` addition (`Add`/`AddAssign` panic on `u64`
overflow). -/
def amt_add (a b : Nat) : Res Nat :=
  if a + b < U64LIMIT then .ok (a + b) else .error .crashed

/-- Panicking `bitcoin::Amount` subtraction (`Sub`/`SubAssign` panic on
underflow). -/
def amt_sub (a b : Nat) : Res Nat :=
  if b ≤ a then .ok (a - b) else .error .crashed

/-- `Amount::checked_add`. -/
def checked_add (a b : Nat) : Option Nat :=
  if a + b < U64LIMIT then some (a + b) else none

/-- `Amount::checked_sub`. -/
def checked_sub (a b : Nat) : Option Nat :=
  if b ≤ a then some (a - b) else none

/-- Panicking `sum::<Amount>()`.  The left fold of panicking additions over
non-negative summands panics exactly when the total reaches the `u64`
bound, so the sum is taken directly. -/
def amt_sum (l : List Nat) : Res Nat :=
  if l.sum < U64LIMIT then .ok l.sum else .error .crashed

/-- Replace the amount of the last output, used for the source's
`outputs.last_mut()` assignments; callers establish non-emptiness first. -/
def set_last_amt : List (Nat × Nat) → Nat → List (Nat × Nat)
  | [], _ => []
  | [(a, _)], v => [(a, v)]
  | p :: ps, v => p :: set_last_amt ps v

/-- `self.outputs.last_mut().unwrap().1 += value` (line 305): panics when
the output list is empty or the addition overflows. -/
def add_to_last (outs : List (Nat × Nat)) (v : Nat) : Res (List (Nat × Nat)) :=
  match outs.getLast? with
  | none => .error .crashed
  | some (_, w) => do
      let w' ← amt_add w v
      .ok (set_last_amt outs w')

/-- The sat-offset accumulation loop shared by `calculate_sat_offset`
(lines 589-600) and its re-implementation inside `build` (lines 506-517):
walk the inputs, summing amounts of non-outgoing inputs (indexing into
`amounts` panics on a missing key), returning the accumulated offset plus
the outgoing offset at the first outgoing input; running off the end is the
`panic!` / failed `assert!(found)`. -/
def sat_offset_scan (amounts : List (Nat × Nat)) (outgoing : SatPoint) :
    List Nat → Nat → Res Nat
  | [], _ => .error .crashed
  | i :: rest, acc =>
    if i = outgoing.outpoint then .ok ((acc + outgoing.offset) % U64LIMIT)
    else
      match lookupAmt amounts i with
      | none => .error .crashed
      | some v => sat_offset_scan amounts outgoing rest ((acc + v) % U64LIMIT)

def TransactionBuilder.calculate_sat_offset (b : TransactionBuilder) : Res Nat :=
  sat_offset_scan b.amounts b.outgoing b.inputs 0

/-- `estimate_vbytes` (lines 408-418): the placeholder transaction's vsize
from the input count and the output addresses. -/
def TransactionBuilder.estimate_vbytes (env : Env) (b : TransactionBuilder) : Nat :=
  env.vsize b.inputs.length (b.outputs.map (fun p => p.1))

def TransactionBuilder.estimate_fee (env : Env) (b : TransactionBuilder) : Nat :=
  env.fee (b.estimate_vbytes env)

/-- The condition of the inscription loop in `select_outgoing`
(lines 181-192). -/
def inscription_conflict (outgoing : SatPoint) (dust_limit : Nat)
    (p : SatPoint × Nat) : Bool :=
  outgoing.outpoint == p.1.outpoint && outgoing.offset != p.1.offset &&
    decide (outgoing.offset < (p.1.offset + dust_limit) % U64LIMIT)

/-- `select_outgoing` (lines 172-214). -/
def TransactionBuilder.select_outgoing (env : Env) (b : TransactionBuilder) :
    Res TransactionBuilder :=
  match b.unused_change_addresses.getLast? with
  | none => .error .crashed
  | some last_change =>
    match b.inscriptions.reverse.find?
        (inscription_conflict b.outgoing (env.dust_value (env.spk last_change))) with
    | some p =>
        .error (.err (.UtxoContainsAdditionalInscription b.outgoing p.1 p.2))
    | none =>
      match lookupAmt b.amounts b.outgoing.outpoint with
      | none => .error (.err (.NotInWallet b.outgoing))
      | some amount =>
        if amount ≤ b.outgoing.offset then
          .error (.err (.OutOfRange b.outgoing (amount - 1)))
        else
          .ok { b with
                utxos := b.utxos.erase b.outgoing.outpoint,
                inputs := b.inputs ++ [b.outgoing.outpoint],
                outputs := b.outputs ++ [(b.recipient, amount)] }

/-- `align_outgoing` (lines 216-244).  The two leading `assert_eq!`s, the
`pop().expect(..)`, the trailing `last_mut().expect(..)` and the panicking
`-=` are the `crashed` branches. -/
def TransactionBuilder.align_outgoing (b : TransactionBuilder) : Res TransactionBuilder :=
  if b.outputs.length ≠ 1 then .error .crashed
  else if b.outputs.head?.map (fun p => p.1) ≠ some b.recipient then .error .crashed
  else do
    let sat_offset ← b.calculate_sat_offset
    if sat_offset = 0 then .ok b
    else
      match b.unused_change_addresses.getLast? with
      | none => .error .crashed
      | some popped =>
        match ((popped, sat_offset) :: b.outputs).getLast? with
        | none => .error .crashed
        | some lastp => do
          let lastv' ← amt_sub lastp.2 sat_offset
          .ok { b with
                unused_change_addresses := b.unused_change_addresses.dropLast,
                outputs := set_last_amt ((popped, sat_offset) :: b.outputs) lastv' }

/-- Absolute difference of amounts (line 642). -/
def abs_diff (a b : Nat) : Nat := max a b - min a b

/-- One iteration of the best-candidate update in `select_cardinal_utxo`
(lines 634-665).  When `best` is `none` the source first sets it to the
current candidate and then evaluates the three conditions against it, which
leaves the current candidate selected either way; `Option.getD` captures
that. -/
def scan_step (prefer_under : Bool) (target_value : Nat)
    (best : Option (Nat × Nat)) (u cv : Nat) : Nat × Nat :=
  let bu := (best.getD (u, cv)).1
  let bv := (best.getD (u, cv)).2
  let is_closer := decide (abs_diff cv target_value < abs_diff bv target_value)
  let not_preference_but_closer :=
    if prefer_under then decide (target_value < bv) && is_closer
    else decide (bv < target_value) && is_closer
  let is_preference_and_closer :=
    if prefer_under then decide (cv ≤ target_value) && is_closer
    else decide (target_value ≤ cv) && is_closer
  let newly_meets_preference :=
    if prefer_under then decide (target_value < bv) && decide (cv ≤ target_value)
    else decide (bv < target_value) && decide (target_value ≤ cv)
  if is_preference_and_closer || not_preference_but_closer || newly_meets_preference
  then (u, cv) else (bu, bv)

/-- Whether a UTXO is skipped by `select_cardinal_utxo`'s scan
(lines 625-630): rune-bearing, inscribed, or locked. -/
def cardinal_excluded (b : TransactionBuilder) (u : Nat) : Bool :=
  b.runic_utxos.contains u
    || (b.inscriptions.map (fun p => p.1.outpoint)).contains u
    || b.locked_utxos.contains u

/-- The scan over `self.utxos` in `select_cardinal_utxo` (lines 623-666);
`self.amounts[utxo]` panics on a missing key. -/
def scan_utxos (b : TransactionBuilder) (prefer_under : Bool) (target_value : Nat) :
    List Nat → Option (Nat × Nat) → Res (Option (Nat × Nat))
  | [], best => .ok best
  | u :: rest, best =>
    if cardinal_excluded b u then scan_utxos b prefer_under target_value rest best
    else
      match lookupAmt b.amounts u with
      | none => .error .crashed
      | some cv =>
          scan_utxos b prefer_under target_value rest
            (some (scan_step prefer_under target_value best u cv))

/-- `select_cardinal_utxo` (lines 607-674): scan for the best match, fail
with `NotEnoughCardinalUtxos` when no candidate exists, and remove the
chosen outpoint from the pool. -/
def TransactionBuilder.select_cardinal_utxo (b : TransactionBuilder)
    (target_value : Nat) (prefer_under : Bool) : Res (TransactionBuilder × Nat × Nat) := do
  let best ← scan_utxos b prefer_under target_value b.utxos none
  match best with
  | none => .error (.err .NotEnoughCardinalUtxos)
  | some p => .ok ({ b with utxos := b.utxos.erase p.1 }, p.1, p.2)

theorem scan_step_cases (pu : Bool) (t : Nat) (best : Option (Nat × Nat)) (u cv : Nat) :
    scan_step pu t best u cv = (u, cv) ∨ some (scan_step pu t best u cv) = best := by
  unfold scan_step
  cases best with
  | none => left; simp
  | some p =>
      dsimp only [Option.getD]
      exact (ite_eq_or_eq _ _ _).imp id (fun h => by rw [h])

theorem scan_utxos_mem (b : TransactionBuilder) (pu : Bool) (t : Nat) :
    ∀ (l : List Nat) (best : Option (Nat × Nat)) (r : Nat × Nat),
      scan_utxos b pu t l best = .ok (some r) → r.1 ∈ l ∨ best = some r := by
  intro l
  induction l with
  | nil =>
      intro best r h
      right
      simpa [scan_utxos] using h
  | cons u rest ih =>
      intro best r h
      rw [scan_utxos] at h
      by_cases hex : cardinal_excluded b u = true
      · rw [if_pos hex] at h
        rcases ih best r h with h1 | h2
        · exact Or.inl (List.mem_cons_of_mem _ h1)
        · exact Or.inr h2
      · rw [if_neg hex] at h
        cases hl : lookupAmt b.amounts u with
        | none => rw [hl] at h; exact Except.noConfusion h
        | some cv =>
            rw [hl] at h
            rcases ih _ r h with h1 | h2
            · exact Or.inl (List.mem_cons_of_mem _ h1)
            · have hsr : scan_step pu t best u cv = r := Option.some.inj h2
              rcases scan_step_cases pu t best u cv with hc | hc
              · exact Or.inl (by rw [← hsr, hc]; exact List.mem_cons_self u rest)
              · exact Or.inr (by rw [← hc, hsr])

theorem select_cardinal_utxo_utxos_length (b : TransactionBuilder) (t : Nat) (pu : Bool)
    (b' : TransactionBuilder) (u v : Nat)
    (h : b.select_cardinal_utxo t pu = .ok (b', u, v)) :
    b'.utxos.length < b.utxos.length := by
  unfold TransactionBuilder.select_cardinal_utxo at h
  cases hs : scan_utxos b pu t b.utxos none with
  | error e => rw [hs, res_bind_error] at h; exact Except.noConfusion h
  | ok best =>
      rw [hs, res_bind_ok_left] at h
      cases best with
      | none => exact Except.noConfusion h
      | some p =>
          have hinj := Except.ok.inj h
          have hb' : { b with utxos := b.utxos.erase p.1 } = b' := congrArg Prod.fst hinj
          have hmem : p.1 ∈ b.utxos := by
            rcases scan_utxos_mem b pu t b.utxos none p hs with h1 | h2
            · exact h1
            · exact Option.noConfusion h2
          rw [← hb']
          show (b.utxos.erase p.1).length < b.utxos.length
          rw [List.length_erase_of_mem hmem]
          have hpos : 0 < b.utxos.length := List.length_pos.mpr (List.ne_nil_of_mem hmem)
          omega

/-- The `while` loop of `pad_alignment_output` (lines 260-270): while the
leading output is below the dust limit, select another cardinal UTXO
preferring ones under the remaining gap, prepend it as an input and add its
full value to the leading output. -/
def pad_loop (dust_limit : Nat) (b : TransactionBuilder) : Res TransactionBuilder :=
  match b.outputs with
  | [] => .error .crashed
  | p0 :: rest =>
    if p0.2 < dust_limit then
      match h : b.select_cardinal_utxo (dust_limit - p0.2) true with
      | .error e => .error e
      | .ok r =>
        match amt_add p0.2 r.2.2 with
        | .error e => .error e
        | .ok v0' =>
          pad_loop dust_limit
            { r.1 with inputs := r.2.1 :: r.1.inputs, outputs := (p0.1, v0') :: rest }
    else .ok b
termination_by b.utxos.length
decreasing_by
  exact select_cardinal_utxo_utxos_length b (dust_limit - p0.2) true r.1 r.2.1 r.2.2 h

/-- `pad_alignment_output` (lines 246-275): skip when the leading output
already pays the recipient; otherwise read the dust limit of the last
unused change address (`.last().unwrap()` panics on an empty queue) and run
the padding loop. -/
def TransactionBuilder.pad_alignment_output (env : Env) (b : TransactionBuilder) :
    Res TransactionBuilder :=
  match b.outputs.head? with
  | none => .error .crashed
  | some p0 =>
    if p0.1 = b.recipient then .ok b
    else
      match b.unused_change_addresses.getLast? with
      | none => .error .crashed
      | some last_change =>
        pad_loop (env.dust_value (env.spk last_change)) b

/-- The deficit loop of `add_value` (lines 289-315). -/
def add_value_loop (env : Env) (b : TransactionBuilder) (deficit : Nat) :
    Res TransactionBuilder :=
  if deficit = 0 then .ok b
  else
    match checked_add deficit (env.fee TransactionBuilder.ADDITIONAL_INPUT_VBYTES) with
    | none => .error (.err .ValueOverflow)
    | some needed =>
      match h : b.select_cardinal_utxo needed false with
      | .error e => .error e
      | .ok r =>
        match checked_sub r.2.2 (env.fee TransactionBuilder.ADDITIONAL_INPUT_VBYTES) with
        | none => .error (.err .NotEnoughCardinalUtxos)
        | some benefit =>
          match add_to_last r.1.outputs r.2.2 with
          | .error e => .error e
          | .ok outputs' =>
            if deficit < benefit then
              add_value_loop env
                { r.1 with inputs := r.1.inputs ++ [r.2.1], outputs := outputs' } 0
            else
              add_value_loop env
                { r.1 with inputs := r.1.inputs ++ [r.2.1], outputs := outputs' }
                (deficit - benefit)
termination_by b.utxos.length
decreasing_by
  · exact select_cardinal_utxo_utxos_length b _ false r.1 r.2.1 r.2.2 h
  · exact select_cardinal_utxo_utxos_length b _ false r.1 r.2.1 r.2.2 h

/-- The `min_value` computation of `add_value` (lines 280-283): the dust
value of the last output's address under `Target::Postage`, the requested
amount otherwise. -/
def min_value_of (env : Env) (target : Target) (last_addr : Nat) : Nat :=
  match target with
  | .Postage => env.dust_value (env.spk last_addr)
  | .Value v => v
  | .ExactPostage v => v

/-- `add_value` (lines 277-318). -/
def TransactionBuilder.add_value (env : Env) (b : TransactionBuilder) :
    Res TransactionBuilder :=
  match b.outputs.getLast? with
  | none => .error .crashed
  | some lastp =>
    match checked_add (min_value_of env b.target lastp.1) (b.estimate_fee env) with
    | none => .error (.err .ValueOverflow)
    | some total =>
      match checked_sub total lastp.2 with
      | none => .ok b
      | some deficit => add_value_loop env b deficit

/-- The `(max, target)` pair of `strip_value` (lines 338-342). -/
def strip_bounds (target : Target) : Nat × Nat :=
  match target with
  | .ExactPostage postage => (postage, postage)
  | .Postage => (TransactionBuilder.MAX_POSTAGE, TARGET_POSTAGE)
  | .Value v => (v, v)

/-- `strip_value` (lines 320-369). -/
def TransactionBuilder.strip_value (env : Env) (b : TransactionBuilder) :
    Res TransactionBuilder := do
  let sat_offset ← b.calculate_sat_offset
  let total_output_amount ← amt_sum (b.outputs.map (fun p => p.2))
  if (b.outputs.find? (fun p => p.1 == b.recipient)).isNone then .error .crashed
  else do
    let value ← amt_sub total_output_amount sat_offset
    match checked_sub value (env.fee (b.estimate_vbytes env)) with
    | none => .ok b
    | some excess =>
      if (strip_bounds b.target).1 < excess then
        match checked_sub value (strip_bounds b.target).2 with
        | none => .error .crashed
        | some value_minus_target =>
          match b.unused_change_addresses.getLast? with
          | none => .error .crashed
          | some last_change => do
            let threshold ← amt_add (env.dust_value (env.spk last_change))
                (env.fee (b.estimate_vbytes env + TransactionBuilder.ADDITIONAL_OUTPUT_VBYTES))
            if threshold < value_minus_target then
              match b.outputs.getLast? with
              | none => .error .crashed
              | some _ =>
                .ok { b with
                      outputs := set_last_amt b.outputs (strip_bounds b.target).2 ++
                        [(last_change, value_minus_target)],
                      unused_change_addresses := b.unused_change_addresses.dropLast }
            else .ok b
      else .ok b

/-- `deduct_fee` (lines 371-402). -/
def TransactionBuilder.deduct_fee (env : Env) (b : TransactionBuilder) :
    Res TransactionBuilder := do
  let sat_offset ← b.calculate_sat_offset
  let fee := b.estimate_fee env
  let total_output_amount ← amt_sum (b.outputs.map (fun p => p.2))
  match b.outputs.getLast? with
  | none => .error .crashed
  | some lastp =>
    match checked_sub total_output_amount fee with
    | none => .error .crashed
    | some rem =>
      if rem ≤ sat_offset then .error .crashed
      else if lastp.2 < fee then .error .crashed
      else .ok { b with outputs := set_last_amt b.outputs (lastp.2 - fee) }

/-- The output-range check of `build` (lines 519-532): accumulate output
values until the running total first exceeds the sat offset; that output's
script must pay the recipient, and running off the end is the failed
`assert!(found)`. -/
def output_scan (recipient_script : Nat) (sat_offset : Nat) :
    List (Nat × Nat) → Nat → Res Unit
  | [], _ => .error .crashed
  | p :: rest, output_end =>
    let output_end' := (output_end + p.1) % U64LIMIT
    if sat_offset < output_end' then
      if p.2 = recipient_script then .ok () else .error .crashed
    else output_scan recipient_script sat_offset rest output_end'

/-- The postage-ceiling check of `build` (lines 534-558): every output
paying the recipient's script must stay within the target-dependent bound
plus one marginal-output fee; `Target::Value` is unconstrained.  The dead
`offset` accumulator of the loop is dropped. -/
def postage_check (env : Env) (target : Target) (recipient_script : Nat) :
    List (Nat × Nat) → Res Unit
  | [] => .ok ()
  | p :: rest =>
    if p.2 = recipient_script then
      match target with
      | .Postage => do
          let lim ← amt_add TransactionBuilder.MAX_POSTAGE
              (env.fee TransactionBuilder.ADDITIONAL_OUTPUT_VBYTES)
          if p.1 ≤ lim then postage_check env target recipient_script rest
          else .error .crashed
      | .ExactPostage postage => do
          let lim ← amt_add postage (env.fee TransactionBuilder.ADDITIONAL_OUTPUT_VBYTES)
          if p.1 ≤ lim then postage_check env target recipient_script rest
          else .error .crashed
      | .Value _ => postage_check env target recipient_script rest
    else postage_check env target recipient_script rest

/-- The `actual_fee` accumulation over inputs in `build` (lines 560-563):
panicking `Amount` additions of the input amounts, with a map-index panic
on a missing outpoint. -/
def actual_fee_inputs (amounts : List (Nat × Nat)) : List Nat → Nat → Res Nat
  | [], acc => .ok acc
  | i :: rest, acc =>
    match lookupAmt amounts i with
    | none => .error .crashed
    | some v => do
        let acc' ← amt_add acc v
        actual_fee_inputs amounts rest acc'

/-- The `actual_fee` subtraction over outputs in `build` (lines 564-566):
panicking `Amount` subtractions. -/
def actual_fee_outputs : List (Nat × Nat) → Nat → Res Nat
  | [], acc => .ok acc
  | p :: rest, acc => do
      let acc' ← amt_sub acc p.1
      actual_fee_outputs rest acc'

/-- The final dust assertion of `build` (lines 579-584). -/
def dust_check (env : Env) : List (Nat × Nat) → Res Unit
  | [] => .ok ()
  | p :: rest =>
    if env.dust_value p.2 ≤ p.1 then dust_check env rest else .error .crashed

/-- The first `assert_eq!` of `build` (lines 485-494): the number of
`amounts` entries at the outgoing outpoint whose value covers the outgoing
offset. -/
def outgoing_amount_count (b : TransactionBuilder) : Nat :=
  (b.amounts.filter
    (fun p => p.1 == b.outgoing.outpoint && decide (b.outgoing.offset < p.2))).length

/-- The output list of the assembled transaction (lines 449-467): the
builder's outputs as `(value, script_pubkey)` pairs, with the zero-value
`orddefi:auth` `OP_RETURN` marker output pushed at the end. -/
def tx_outputs (env : Env) (b : TransactionBuilder) : List (Nat × Nat) :=
  (b.outputs.map (fun p => (p.2, env.spk p.1))) ++ [(0, env.op_return_script)]

/-- `build` (lines 447-587): assemble the transaction (its input list is
the builder's inputs, its output list is `tx_outputs`), then run every
invariant check of the source in order; any failed assertion is a panic.
The `expected_fee` of the commented-out fee-equality assertion
(lines 568-577) is computed but discarded in the source and elided here. -/
def TransactionBuilder.build (env : Env) (b : TransactionBuilder) : Res Transaction :=
  if outgoing_amount_count b ≠ 1 then .error .crashed
  else if (b.inputs.filter (fun i => i == b.outgoing.outpoint)).length ≠ 1 then
    .error .crashed
  else do
    let sat_offset ← sat_offset_scan b.amounts b.outgoing b.inputs 0
    let _ ← output_scan (env.spk b.recipient) sat_offset (tx_outputs env b) 0
    let _ ← postage_check env b.target (env.spk b.recipient) (tx_outputs env b)
    let fin ← actual_fee_inputs b.amounts b.inputs 0
    let _ ← actual_fee_outputs (tx_outputs env b) fin
    let _ ← dust_check env (tx_outputs env b)
    .ok { version := 2, lock_time := 0, input := b.inputs, output := tx_outputs env b }

/-- The up-front dust precondition of `build_transaction` (lines 148-160). -/
def dust_precheck (env : Env) (b : TransactionBuilder) : Res Unit :=
  match b.target with
  | .Value output_value =>
    if output_value < env.dust_value (env.spk b.recipient) then
      .error (.err (.Dust output_value (env.dust_value (env.spk b.recipient))))
    else .ok ()
  | .ExactPostage output_value =>
    if output_value < env.dust_value (env.spk b.recipient) then
      .error (.err (.Dust output_value (env.dust_value (env.spk b.recipient))))
    else .ok ()
  | .Postage => .ok ()

/-- `build_transaction` (lines 147-170): the dust precheck followed by the
fixed pipeline. -/
def TransactionBuilder.build_transaction (env : Env) (b : TransactionBuilder) :
    Res Transaction := do
  let _ ← dust_precheck env b
  let b1 ← b.select_outgoing env
  let b2 ← b1.align_outgoing
  let b3 ← b2.pad_alignment_output env
  let b4 ← b3.add_value env
  let b5 ← b4.strip_value env
  let b6 ← b5.deduct_fee env
  b6.build env

/-- `TransactionBuilder::new` (lines 119-145): the UTXO pool is the key set
of `amounts`, and the unused-change-address queue holds exactly the one
supplied change address.  The `fee_rate` argument lives in `Env.fee`. -/
def TransactionBuilder.new (outgoing : SatPoint) (inscriptions : List (SatPoint × Nat))
    (amounts : List (Nat × Nat)) (locked_utxos runic_utxos : List Nat)
    (recipient change : Nat) (target : Target) : TransactionBuilder :=
  { amounts := amounts
    change_addresses := change
    inputs := []
    inscriptions := inscriptions
    locked_utxos := locked_utxos
    outgoing := outgoing
    outputs := []
    recipient := recipient
    runic_utxos := runic_utxos
    target := target
    unused_change_addresses := [change]
    utxos := amounts.map (fun p => p.1) }

/-
Embedding of `src/subcommand/wallet/commit_gen_addr.rs`: the hex
private-key parsing that guards commit-address key derivation.
-/

/-- Value of one hex digit; `hex::decode` accepts both cases. -/
def hex_digit_value (c : Char) : Option Nat :=
  if '0' ≤ c ∧ c ≤ '9' then some (c.toNat - '0'.toNat)
  else if 'a' ≤ c ∧ c ≤ 'f' then some (c.toNat - 'a'.toNat + 10)
  else if 'A' ≤ c ∧ c ≤ 'F' then some (c.toNat - 'A'.toNat + 10)
  else none

/-- The `hex::decode` collaborator: pairs of hex digits to bytes, failing
on an odd-length input or a non-hex character. -/
def hex_decode : List Char → Option (List Nat)
  | [] => some []
  | [_] => none
  | c1 :: c2 :: rest =>
    match hex_digit_value c1, hex_digit_value c2, hex_decode rest with
    | some hi, some lo, some bs => some ((hi * 16 + lo) :: bs)
    | _, _, _ => none

/-- The error strings of `bytes_from_hex_string` (lines 29-46), as
constructors: the 64-character length check, the `hex::decode` failure and
the decoded-length check. -/
inductive HexError where
  | WrongLength
  | DecodeFailed
  | WrongByteCount
  deriving DecidableEq, Repr

/-- `CommitGenAddr::bytes_from_hex_string` (lines 29-46). -/
def CommitGenAddr.bytes_from_hex_string (hex_str : List Char) :
    Except HexError (List Nat) :=
  if hex_str.length ≠ 64 then .error .WrongLength
  else
    match hex_decode hex_str with
    | some bytes =>
        if bytes.length ≠ 32 then .error .WrongByteCount else .ok bytes
    | none => .error .DecodeFailed

/-- Failure modes of `key_pair_from_str` (lines 48-58):
`CannotRestorePrivateKey` is the `bail!` on a decode failure, `Crashed` the
`.unwrap()` panic when `KeyPair::from_seckey_slice` rejects the bytes. -/
inductive KeyPairError where
  | CannotRestorePrivateKey
  | Crashed
  deriving DecidableEq, Repr

/-- `CommitGenAddr::key_pair_from_str` (lines 48-58).  The elliptic-curve
collaborators (`Secp256k1::new` and `KeyPair::from_seckey_slice`, both from
the bitcoin library) are abstracted as the `from_seckey_slice` argument;
they are invoked only after `bytes_from_hex_string` succeeds. -/
def CommitGenAddr.key_pair_from_str (KP : Type) (from_seckey_slice : List Nat → Option KP)
    (key : List Char) : Except KeyPairError KP :=
  match CommitGenAddr.bytes_from_hex_string key with
  | .error _ => .error .CannotRestorePrivateKey
  | .ok bytes =>
    match from_seckey_slice bytes with
    | none => .error .Crashed
    | some kp => .ok kp

/-
Inversion and preservation lemmas about the pipeline, used by the claim
theorems below.
-/

/-- The pipeline stages never change the amounts map, the outgoing
satpoint, the recipient or the target policy; only the working sets
(inputs, outputs, pool, change queue) evolve. -/
def same_core (b b' : TransactionBuilder) : Prop :=
  b'.amounts = b.amounts ∧ b'.outgoing = b.outgoing ∧ b'.recipient = b.recipient ∧
    b'.target = b.target

theorem same_core_refl (b : TransactionBuilder) : same_core b b :=
  ⟨rfl, rfl, rfl, rfl⟩

theorem same_core_trans {a b c : TransactionBuilder}
    (h1 : same_core a b) (h2 : same_core b c) : same_core a c :=
  ⟨h2.1.trans h1.1, h2.2.1.trans h1.2.1, h2.2.2.1.trans h1.2.2.1, h2.2.2.2.trans h1.2.2.2⟩

theorem select_outgoing_ok_inv (env : Env) (b b' : TransactionBuilder)
    (h : b.select_outgoing env = .ok b') :
    ∃ amount, lookupAmt b.amounts b.outgoing.outpoint = some amount ∧
      b.outgoing.offset < amount ∧
      b' = { b with
             utxos := b.utxos.erase b.outgoing.outpoint,
             inputs := b.inputs ++ [b.outgoing.outpoint],
             outputs := b.outputs ++ [(b.recipient, amount)] } := by
  unfold TransactionBuilder.select_outgoing at h
  split at h
  · exact Except.noConfusion h
  · split at h
    · exact Except.noConfusion h
    · split at h
      · exact Except.noConfusion h
      · rename_i amount heq
        split at h
        · exact Except.noConfusion h
        · rename_i hlt
          exact ⟨amount, heq, by omega, (Except.ok.inj h).symm⟩

theorem select_outgoing_core (env : Env) (b b' : TransactionBuilder)
    (h : b.select_outgoing env = .ok b') : same_core b b' := by
  obtain ⟨amount, _, _, hb'⟩ := select_outgoing_ok_inv env b b' h
  rw [hb']
  exact same_core_refl _

theorem align_outgoing_core (b b' : TransactionBuilder)
    (h : b.align_outgoing = .ok b') : same_core b b' := by
  unfold TransactionBuilder.align_outgoing at h
  split at h
  · exact Except.noConfusion h
  · split at h
    · exact Except.noConfusion h
    · obtain ⟨so, hso, h⟩ := res_bind_ok h
      split at h
      · exact (Except.ok.inj h) ▸ same_core_refl _
      · split at h
        · exact Except.noConfusion h
        · split at h
          · exact Except.noConfusion h
          · obtain ⟨lv, hlv, h⟩ := res_bind_ok h
            exact (Except.ok.inj h) ▸ same_core_refl _

theorem select_cardinal_utxo_core (b : TransactionBuilder) (t : Nat) (pu : Bool)
    (r : TransactionBuilder × Nat × Nat)
    (h : b.select_cardinal_utxo t pu = .ok r) : same_core b r.1 := by
  unfold TransactionBuilder.select_cardinal_utxo at h
  obtain ⟨best, hbest, h⟩ := res_bind_ok h
  split at h
  · exact Except.noConfusion h
  · exact (Except.ok.inj h) ▸ same_core_refl _

theorem pad_loop_core (dl : Nat) (b b' : TransactionBuilder)
    (h : pad_loop dl b = .ok b') : same_core b b' := by
  induction b using pad_loop.induct dl with
  | case1 x hx =>
      rw [pad_loop, hx] at h
      exact Except.noConfusion h
  | case2 x p0 rest hx hlt e hsel =>
      rw [pad_loop, hx] at h
      dsimp only at h
      rw [if_pos hlt] at h
      split at h
      · exact Except.noConfusion h
      · rename_i r' heq
        rw [hsel] at heq
        exact Except.noConfusion heq
  | case3 x p0 rest hx hlt r hsel e hadd =>
      rw [pad_loop, hx] at h
      dsimp only at h
      rw [if_pos hlt] at h
      split at h
      · rename_i e' heq
        rw [hsel] at heq
        exact Except.noConfusion heq
      · rename_i r' heq
        rw [hsel] at heq
        cases Except.ok.inj heq
        simp only [hadd] at h
        exact Except.noConfusion h
  | case4 x p0 rest hx hlt r hsel v0' hadd ih =>
      rw [pad_loop, hx] at h
      dsimp only at h
      rw [if_pos hlt] at h
      split at h
      · rename_i e' heq
        rw [hsel] at heq
        exact Except.noConfusion heq
      · rename_i r' heq
        rw [hsel] at heq
        cases Except.ok.inj heq
        simp only [hadd] at h
        have hcore := select_cardinal_utxo_core x (dl - p0.2) true r hsel
        exact same_core_trans hcore (ih h)
  | case5 x p0 rest hx hlt =>
      rw [pad_loop, hx] at h
      dsimp only at h
      rw [if_neg hlt] at h
      exact (Except.ok.inj h) ▸ same_core_refl _

theorem pad_alignment_output_core (env : Env) (b b' : TransactionBuilder)
    (h : b.pad_alignment_output env = .ok b') : same_core b b' := by
  unfold TransactionBuilder.pad_alignment_output at h
  split at h
  · exact Except.noConfusion h
  · split at h
    · exact (Except.ok.inj h) ▸ same_core_refl _
    · split at h
      · exact Except.noConfusion h
      · exact pad_loop_core _ b b' h

theorem add_value_loop_core (env : Env) (b : TransactionBuilder) (deficit : Nat)
    (b' : TransactionBuilder) (h : add_value_loop env b deficit = .ok b') :
    same_core b b' := by
  induction b, deficit using add_value_loop.induct env with
  | case1 x =>
      rw [add_value_loop, if_pos rfl] at h
      exact (Except.ok.inj h) ▸ same_core_refl _
  | case2 x deficit hne hca =>
      rw [add_value_loop, if_neg hne] at h
      simp only [hca] at h
      exact Except.noConfusion h
  | case3 x deficit hne v hca e hsel =>
      rw [add_value_loop, if_neg hne] at h
      simp only [hca] at h
      split at h
      · exact Except.noConfusion h
      · rename_i r' heq
        rw [hsel] at heq
        exact Except.noConfusion heq
  | case4 x deficit hne v hca r hsel hcs =>
      rw [add_value_loop, if_neg hne] at h
      simp only [hca] at h
      split at h
      · rename_i e' heq
        rw [hsel] at heq
        exact Except.noConfusion heq
      · rename_i r' heq
        rw [hsel] at heq
        cases Except.ok.inj heq
        simp only [hcs] at h
        exact Except.noConfusion h
  | case5 x deficit hne v hca r hsel benefit hcs e hatl =>
      rw [add_value_loop, if_neg hne] at h
      simp only [hca] at h
      split at h
      · rename_i e' heq
        rw [hsel] at heq
        exact Except.noConfusion heq
      · rename_i r' heq
        rw [hsel] at heq
        cases Except.ok.inj heq
        simp only [hcs, hatl] at h
        exact Except.noConfusion h
  | case6 x deficit hne v hca r hsel benefit hcs outputs' hatl hlt ih =>
      rw [add_value_loop, if_neg hne] at h
      simp only [hca] at h
      split at h
      · rename_i e' heq
        rw [hsel] at heq
        exact Except.noConfusion heq
      · rename_i r' heq
        rw [hsel] at heq
        cases Except.ok.inj heq
        simp only [hcs, hatl] at h
        rw [if_pos hlt] at h
        have hcore := select_cardinal_utxo_core x v false r hsel
        exact same_core_trans hcore (ih h)
  | case7 x deficit hne v hca r hsel benefit hcs outputs' hatl hlt ih =>
      rw [add_value_loop, if_neg hne] at h
      simp only [hca] at h
      split at h
      · rename_i e' heq
        rw [hsel] at heq
        exact Except.noConfusion heq
      · rename_i r' heq
        rw [hsel] at heq
        cases Except.ok.inj heq
        simp only [hcs, hatl] at h
        rw [if_neg hlt] at h
        have hcore := select_cardinal_utxo_core x v false r hsel
        exact same_core_trans hcore (ih h)

theorem add_value_core (env : Env) (b b' : TransactionBuilder)
    (h : b.add_value env = .ok b') : same_core b b' := by
  unfold TransactionBuilder.add_value at h
  split at h
  · exact Except.noConfusion h
  · split at h
    · exact Except.noConfusion h
    · split at h
      · exact (Except.ok.inj h) ▸ same_core_refl _
      · exact add_value_loop_core env b _ b' h

theorem strip_value_core (env : Env) (b b' : TransactionBuilder)
    (h : b.strip_value env = .ok b') : same_core b b' := by
  unfold TransactionBuilder.strip_value at h
  obtain ⟨so, hso, h⟩ := res_bind_ok h
  obtain ⟨tot, htot, h⟩ := res_bind_ok h
  split at h
  · exact Except.noConfusion h
  · obtain ⟨val, hval, h⟩ := res_bind_ok h
    split at h
    · exact (Except.ok.inj h) ▸ same_core_refl _
    · split at h
      · split at h
        · exact Except.noConfusion h
        · split at h
          · exact Except.noConfusion h
          · obtain ⟨thr, hthr, h⟩ := res_bind_ok h
            split at h
            · split at h
              · exact Except.noConfusion h
              · exact (Except.ok.inj h) ▸ same_core_refl _
            · exact (Except.ok.inj h) ▸ same_core_refl _
      · exact (Except.ok.inj h) ▸ same_core_refl _

theorem deduct_fee_core (env : Env) (b b' : TransactionBuilder)
    (h : b.deduct_fee env = .ok b') : same_core b b' := by
  unfold TransactionBuilder.deduct_fee at h
  obtain ⟨so, hso, h⟩ := res_bind_ok h
  obtain ⟨tot, htot, h⟩ := res_bind_ok h
  split at h
  · exact Except.noConfusion h
  · split at h
    · exact Except.noConfusion h
    · split at h
      · exact Except.noConfusion h
      · split at h
        · exact Except.noConfusion h
        · exact (Except.ok.inj h) ▸ same_core_refl _

theorem amt_add_ok {a b c : Nat} (h : amt_add a b = .ok c) : c = a + b := by
  unfold amt_add at h
  split at h
  · exact (Except.ok.inj h).symm
  · exact Except.noConfusion h

theorem build_ok_inv (env : Env) (b : TransactionBuilder) (tx : Transaction)
    (h : b.build env = .ok tx) :
    tx = { version := 2, lock_time := 0, input := b.inputs, output := tx_outputs env b } ∧
    (tx.input.filter (fun i => i == b.outgoing.outpoint)).length = 1 ∧
    (∃ so, sat_offset_scan b.amounts b.outgoing tx.input 0 = .ok so ∧
       output_scan (env.spk b.recipient) so tx.output 0 = .ok ()) ∧
    postage_check env b.target (env.spk b.recipient) tx.output = .ok () ∧
    dust_check env tx.output = .ok () := by
  unfold TransactionBuilder.build at h
  split at h
  · exact Except.noConfusion h
  · split at h
    · exact Except.noConfusion h
    · rename_i hcnt hfil
      obtain ⟨so, hso, h⟩ := res_bind_ok h
      obtain ⟨u1, hos, h⟩ := res_bind_ok h
      obtain ⟨u2, hpc, h⟩ := res_bind_ok h
      obtain ⟨fin, hfin, h⟩ := res_bind_ok h
      obtain ⟨u3, hafo, h⟩ := res_bind_ok h
      obtain ⟨u4, hdc, h⟩ := res_bind_ok h
      have htx := (Except.ok.inj h).symm
      subst htx
      refine ⟨rfl, by simpa using hfil, ⟨so, hso, ?_⟩, ?_, ?_⟩
      · cases u1; exact hos
      · cases u2; exact hpc
      · cases u4; exact hdc

theorem build_transaction_ok_inv (env : Env) (b : TransactionBuilder) (tx : Transaction)
    (h : b.build_transaction env = .ok tx) :
    ∃ b6, same_core b b6 ∧ b6.build env = .ok tx := by
  unfold TransactionBuilder.build_transaction at h
  obtain ⟨u0, hpre, h⟩ := res_bind_ok h
  obtain ⟨b1, h1, h⟩ := res_bind_ok h
  obtain ⟨b2, h2, h⟩ := res_bind_ok h
  obtain ⟨b3, h3, h⟩ := res_bind_ok h
  obtain ⟨b4, h4, h⟩ := res_bind_ok h
  obtain ⟨b5, h5, h⟩ := res_bind_ok h
  obtain ⟨b6, h6, h⟩ := res_bind_ok h
  refine ⟨b6, ?_, h⟩
  exact same_core_trans (select_outgoing_core env b b1 h1)
    (same_core_trans (align_outgoing_core b1 b2 h2)
      (same_core_trans (pad_alignment_output_core env b2 b3 h3)
        (same_core_trans (add_value_core env b3 b4 h4)
          (same_core_trans (strip_value_core env b4 b5 h5)
            (deduct_fee_core env b5 b6 h6)))))

theorem dust_check_sound (env : Env) : ∀ (l : List (Nat × Nat)),
    dust_check env l = .ok () → ∀ p ∈ l, env.dust_value p.2 ≤ p.1 := by
  intro l
  induction l with
  | nil => intro _ p hp; cases hp
  | cons q rest ih =>
      intro h p hp
      rw [dust_check] at h
      split at h
      · rename_i hq
        rcases List.mem_cons.mp hp with rfl | hm
        · exact hq
        · exact ih h p hm
      · exact Except.noConfusion h

theorem postage_check_sound_postage (env : Env) (rs : Nat) :
    ∀ (l : List (Nat × Nat)), postage_check env .Postage rs l = .ok () →
      ∀ p ∈ l, p.2 = rs →
        p.1 ≤ TransactionBuilder.MAX_POSTAGE +
          env.fee TransactionBuilder.ADDITIONAL_OUTPUT_VBYTES := by
  intro l
  induction l with
  | nil => intro _ p hp; cases hp
  | cons q rest ih =>
      intro h p hp hps
      rw [postage_check] at h
      split at h
      · rename_i hq
        obtain ⟨lim, hlim, h⟩ := res_bind_ok h
        split at h
        · rename_i hle
          rcases List.mem_cons.mp hp with rfl | hm
          · rw [amt_add_ok hlim] at hle
            exact hle
          · exact ih h p hm hps
        · exact Except.noConfusion h
      · rename_i hq
        rcases List.mem_cons.mp hp with rfl | hm
        · exact absurd hps hq
        · exact ih h p hm hps

/-
Concrete collaborator instantiations used by witnesses and counterexamples.
-/

/-- A concrete environment: an address's script is the address itself,
every script has dust value 330 except the OP_RETURN marker script 999
whose dust value is 0 (as in rust-bitcoin, where provably unspendable
scripts have dust value zero), fees and virtual sizes are zero. -/
def env0 : Env :=
  { spk := fun a => a
    dust_value := fun s => if s = 999 then 0 else 330
    fee := fun _ => 0
    vsize := fun _ _ => 0
    op_return_script := 999 }

/-- An environment with a nonzero fee rate: 2 sats per vbyte on the
marginal-output constant, zero placeholder size. -/
def env2 : Env :=
  { spk := fun a => a
    dust_value := fun s => if s = 999 then 0 else 330
    fee := fun vb => 2 * vb
    vsize := fun _ _ => 0
    op_return_script := 999 }

/-
Claim theorems.
-/

/-- C8: for every input with `Target::Value v` or `Target::ExactPostage v`
where `v` is below the recipient script's dust threshold,
`build_transaction` returns the `Dust` error immediately, for every
possible UTXO set, inscriptions map, locked and runic sets — no UTXO is
examined, selected, or removed, since the result is this error for all of
them. -/
theorem C8_dust_error_checked_up_front (env : Env) (outgoing : SatPoint)
    (inscriptions : List (SatPoint × Nat)) (amounts : List (Nat × Nat))
    (locked runic : List Nat) (recipient change : Nat) (target : Target) (v : Nat)
    (htar : target = .Value v ∨ target = .ExactPostage v)
    (hlt : v < env.dust_value (env.spk recipient)) :
    (TransactionBuilder.new outgoing inscriptions amounts locked runic recipient
        change target).build_transaction env =
      .error (.err (.Dust v (env.dust_value (env.spk recipient)))) := by
  have hpre : dust_precheck env (TransactionBuilder.new outgoing inscriptions amounts
      locked runic recipient change target) =
      .error (.err (.Dust v (env.dust_value (env.spk recipient)))) := by
    rcases htar with rfl | rfl
    · unfold dust_precheck
      exact if_pos hlt
    · unfold dust_precheck
      exact if_pos hlt
  unfold TransactionBuilder.build_transaction
  rw [hpre, res_bind_error]

/-- Witness for C8 at a concrete input: `Target::Value 100` with recipient
dust threshold 330 yields the `Dust` error. -/
theorem C8_witness :
    (TransactionBuilder.new ⟨0, 0⟩ [] [(0, 5000)] [] [] 1 2
        (.Value 100)).build_transaction env0 = .error (.err (.Dust 100 330)) :=
  C8_dust_error_checked_up_front env0 ⟨0, 0⟩ [] [(0, 5000)] [] [] 1 2 (.Value 100) 100
    (Or.inl rfl) (by decide)

/-- C7 counterexample: the claim fails as stated because `select_outgoing`
scans the inscriptions map before the wallet lookup.  At this concrete
input the outgoing outpoint is absent from the UTXO amount map and the
target is `Postage`, yet the result is
`UtxoContainsAdditionalInscription`, not `NotInWallet`, because the
inscriptions map holds an inscription at the same outpoint within
dust-limit distance. -/
theorem C7_counterexample :
    (TransactionBuilder.new ⟨1, 5⟩ [(⟨1, 0⟩, 42)] [] [] [] 1 2
        Target.Postage).build_transaction env0 =
      .error (.err (.UtxoContainsAdditionalInscription ⟨1, 5⟩ ⟨1, 0⟩ 42)) := rfl

/-- C7 (amended): for every input whose outgoing outpoint is absent from
the UTXO amount map, whose target is not a `Value`/`ExactPostage` amount
below the recipient's dust threshold (expressed as the up-front dust
precheck succeeding), and whose inscriptions map contains no entry at the
same outpoint, different offset, within the change script's dust-limit
distance ahead of the outgoing offset, `build_transaction` returns the
`NotInWallet` error and no other error. -/
theorem C7_not_in_wallet (env : Env) (outgoing : SatPoint)
    (inscriptions : List (SatPoint × Nat)) (amounts : List (Nat × Nat))
    (locked runic : List Nat) (recipient change : Nat) (target : Target)
    (hpre : dust_precheck env (TransactionBuilder.new outgoing inscriptions amounts
        locked runic recipient change target) = .ok ())
    (hnw : lookupAmt amounts outgoing.outpoint = none)
    (hni : inscriptions.reverse.find?
        (inscription_conflict outgoing (env.dust_value (env.spk change))) = none) :
    (TransactionBuilder.new outgoing inscriptions amounts locked runic recipient
        change target).build_transaction env = .error (.err (.NotInWallet outgoing)) := by
  have hsel : (TransactionBuilder.new outgoing inscriptions amounts locked runic
      recipient change target).select_outgoing env =
      .error (.err (.NotInWallet outgoing)) := by
    unfold TransactionBuilder.select_outgoing
    dsimp only [TransactionBuilder.new]
    rw [show ([change].getLast? : Option Nat) = some change from rfl]
    dsimp only
    rw [hni]
    dsimp only
    rw [hnw]
  unfold TransactionBuilder.build_transaction
  rw [hpre, res_bind_ok_left, hsel, res_bind_error]

/-- Witness for C7 at a concrete input: an empty wallet map with no
inscriptions yields `NotInWallet`. -/
theorem C7_witness :
    (TransactionBuilder.new ⟨3, 0⟩ [] [] [] [] 1 2
        Target.Postage).build_transaction env0 = .error (.err (.NotInWallet ⟨3, 0⟩)) :=
  C7_not_in_wallet env0 ⟨3, 0⟩ [] [] [] [] 1 2 Target.Postage rfl rfl rfl

/-- C9: for every private-key string that is not exactly 64 characters
long or is not valid hexadecimal, `key_pair_from_str` returns the
"cannot restore private key" error before any elliptic-curve operation is
attempted: the result is this error for every possible elliptic-curve
collaborator, so the collaborator is never consulted. -/
theorem C9_bad_key_rejected_before_ec (KP : Type)
    (ec ec' : List Nat → Option KP) (key : List Char)
    (hbad : key.length ≠ 64 ∨ hex_decode key = none) :
    CommitGenAddr.key_pair_from_str KP ec key = .error .CannotRestorePrivateKey ∧
    CommitGenAddr.key_pair_from_str KP ec key = CommitGenAddr.key_pair_from_str KP ec' key := by
  have hbytes : ∃ e, CommitGenAddr.bytes_from_hex_string key = .error e := by
    unfold CommitGenAddr.bytes_from_hex_string
    rcases hbad with hlen | hdec
    · rw [if_pos hlen]
      exact ⟨_, rfl⟩
    · split
      · exact ⟨_, rfl⟩
      · rw [hdec]
        exact ⟨_, rfl⟩
  obtain ⟨e, he⟩ := hbytes
  unfold CommitGenAddr.key_pair_from_str
  rw [he]
  exact ⟨rfl, rfl⟩

/-- Witness for C9 at a concrete input: the one-character string "z" (both
too short and not hex) is rejected identically under two different
elliptic-curve collaborators. -/
theorem C9_witness :
    CommitGenAddr.key_pair_from_str Unit (fun _ => some ()) [Char.ofNat 122] =
      .error .CannotRestorePrivateKey ∧
    CommitGenAddr.key_pair_from_str Unit (fun _ => some ()) [Char.ofNat 122] =
      CommitGenAddr.key_pair_from_str Unit (fun _ => none) [Char.ofNat 122] :=
  C9_bad_key_rejected_before_ec Unit (fun _ => some ()) (fun _ => none)
    [Char.ofNat 122] (Or.inl (by decide))

theorem scan_step_start (pu : Bool) (t u cv : Nat) :
    scan_step pu t none u cv = (u, cv) := by
  unfold scan_step
  simp

theorem scan_step_displaces_under (t bu bv u cv : Nat)
    (hbad : t < bv) (hgood : cv ≤ t) :
    scan_step true t (some (bu, bv)) u cv = (u, cv) := by
  unfold scan_step
  simp [hbad, hgood]

theorem scan_step_displaces_over (t bu bv u cv : Nat)
    (hbad : bv < t) (hgood : t ≤ cv) :
    scan_step false t (some (bu, bv)) u cv = (u, cv) := by
  unfold scan_step
  simp [hbad, hgood]

theorem scan_step_keeps_under (t bu bv u cv : Nat)
    (hbv : bv ≤ t) (hcv : t < cv) (heq : abs_diff cv t = abs_diff bv t) :
    scan_step true t (some (bu, bv)) u cv = (bu, bv) := by
  unfold scan_step
  have h1 : ¬ (t < bv) := not_lt.mpr hbv
  have h2 : ¬ (cv ≤ t) := not_le.mpr hcv
  simp [heq, h1, h2]

theorem select_two_under_first (b : TransactionBuilder) (t a c va vc : Nat)
    (hu : b.utxos = [a, c])
    (hea : cardinal_excluded b a = false) (hec : cardinal_excluded b c = false)
    (hla : lookupAmt b.amounts a = some va) (hlc : lookupAmt b.amounts c = some vc)
    (hva : va ≤ t) (hvc : t < vc) (heq : abs_diff va t = abs_diff vc t) :
    b.select_cardinal_utxo t true = .ok ({ b with utxos := b.utxos.erase a }, a, va) := by
  have hscan : scan_utxos b true t b.utxos none = .ok (some (a, va)) := by
    rw [hu, scan_utxos, if_neg (by simp [hea]), hla]
    dsimp only
    rw [scan_step_start, scan_utxos, if_neg (by simp [hec]), hlc]
    dsimp only
    rw [scan_step_keeps_under t a va c vc hva hvc heq.symm, scan_utxos]
  unfold TransactionBuilder.select_cardinal_utxo
  rw [hscan, res_bind_ok_left]

theorem select_two_over_first (b : TransactionBuilder) (t a c va vc : Nat)
    (hu : b.utxos = [c, a])
    (hea : cardinal_excluded b a = false) (hec : cardinal_excluded b c = false)
    (hla : lookupAmt b.amounts a = some va) (hlc : lookupAmt b.amounts c = some vc)
    (hva : va ≤ t) (hvc : t < vc) :
    b.select_cardinal_utxo t true = .ok ({ b with utxos := b.utxos.erase a }, a, va) := by
  have hscan : scan_utxos b true t b.utxos none = .ok (some (a, va)) := by
    rw [hu, scan_utxos, if_neg (by simp [hec]), hlc]
    dsimp only
    rw [scan_step_start, scan_utxos, if_neg (by simp [hea]), hla]
    dsimp only
    rw [scan_step_displaces_under t c vc a va hvc hva, scan_utxos]
  unfold TransactionBuilder.select_cardinal_utxo
  rw [hscan, res_bind_ok_left]

/-- C4: over a candidate pool of two cardinal UTXOs equidistant from the
target, one at or below the target and one above it, `select_cardinal_utxo`
with `prefer_under = true` selects the one at or below the target —
whichever order the pool is scanned in (first two conjuncts) — and, in
every scan step, a candidate that newly satisfies the directional
preference displaces an incumbent best candidate that does not satisfy it,
with no closeness requirement, for both polarities (last two conjuncts). -/
theorem C4_selection_tie_break_and_displacement :
    (∀ (b : TransactionBuilder) (t a c va vc : Nat),
        b.utxos = [a, c] →
        cardinal_excluded b a = false → cardinal_excluded b c = false →
        lookupAmt b.amounts a = some va → lookupAmt b.amounts c = some vc →
        va ≤ t → t < vc → abs_diff va t = abs_diff vc t →
        b.select_cardinal_utxo t true = .ok ({ b with utxos := b.utxos.erase a }, a, va)) ∧
    (∀ (b : TransactionBuilder) (t a c va vc : Nat),
        b.utxos = [c, a] →
        cardinal_excluded b a = false → cardinal_excluded b c = false →
        lookupAmt b.amounts a = some va → lookupAmt b.amounts c = some vc →
        va ≤ t → t < vc → abs_diff va t = abs_diff vc t →
        b.select_cardinal_utxo t true = .ok ({ b with utxos := b.utxos.erase a }, a, va)) ∧
    (∀ t bu bv u cv : Nat, t < bv → cv ≤ t →
        scan_step true t (some (bu, bv)) u cv = (u, cv)) ∧
    (∀ t bu bv u cv : Nat, bv < t → t ≤ cv →
        scan_step false t (some (bu, bv)) u cv = (u, cv)) := by
  refine ⟨?_, ?_, ?_, ?_⟩
  · intro b t a c va vc hu hea hec hla hlc hva hvc heq
    exact select_two_under_first b t a c va vc hu hea hec hla hlc hva hvc heq
  · intro b t a c va vc hu hea hec hla hlc hva hvc heq
    exact select_two_over_first b t a c va vc hu hea hec hla hlc hva hvc
  · intro t bu bv u cv h1 h2
    exact scan_step_displaces_under t bu bv u cv h1 h2
  · intro t bu bv u cv h1 h2
    exact scan_step_displaces_over t bu bv u cv h1 h2

/-- Witness for C4 at concrete inputs: a pool holding UTXOs of 90 and 110
sats with target 100 selects the 90-sat one in both scan orders, and a
newly-preference-satisfying candidate displaces a strictly closer
incumbent (150 is closer to 100 than 60 is, but 60 is under). -/
theorem C4_witness :
    (TransactionBuilder.new ⟨9, 0⟩ [] [(4, 90), (6, 110)] [] [] 1 2
        Target.Postage).select_cardinal_utxo 100 true =
      .ok ({ TransactionBuilder.new ⟨9, 0⟩ [] [(4, 90), (6, 110)] [] [] 1 2
              Target.Postage with utxos := [6] }, 4, 90) ∧
    (TransactionBuilder.new ⟨9, 0⟩ [] [(4, 110), (6, 90)] [] [] 1 2
        Target.Postage).select_cardinal_utxo 100 true =
      .ok ({ TransactionBuilder.new ⟨9, 0⟩ [] [(4, 110), (6, 90)] [] [] 1 2
              Target.Postage with utxos := [4] }, 6, 90) ∧
    scan_step true 100 (some (7, 150)) 8 60 = (8, 60) ∧
    scan_step false 100 (some (7, 60)) 8 150 = (8, 150) :=
  ⟨C4_selection_tie_break_and_displacement.1
      (TransactionBuilder.new ⟨9, 0⟩ [] [(4, 90), (6, 110)] [] [] 1 2 Target.Postage)
      100 4 6 90 110 rfl rfl rfl rfl rfl (by decide) (by decide) (by decide),
   C4_selection_tie_break_and_displacement.2.1
      (TransactionBuilder.new ⟨9, 0⟩ [] [(4, 110), (6, 90)] [] [] 1 2 Target.Postage)
      100 6 4 90 110 rfl rfl rfl rfl rfl (by decide) (by decide) (by decide),
   C4_selection_tie_break_and_displacement.2.2.1 100 7 150 8 60 (by decide) (by decide),
   C4_selection_tie_break_and_displacement.2.2.2 100 7 60 8 150 (by decide) (by decide)⟩

/-- C1 counterexample: the claim's dichotomy (typed error or
invariant-satisfying transaction) fails as stated, because the pipeline can
also panic: at this concrete input — nonzero outgoing offset with a change
address different from the recipient — `build_transaction` panics in
`pad_alignment_output` on the exhausted change-address queue, returning
neither a typed error nor a transaction. -/
theorem C1_counterexample :
    (TransactionBuilder.new ⟨10, 7⟩ [] [(10, 5000)] [] [] 1 2
        Target.Postage).build_transaction env0 = .error .crashed := rfl

/-- C1 (amended): for every input, `build_transaction` either returns a
typed error, or panics on an internal assertion or expect, or returns a
transaction satisfying the two invariants; equivalently, every transaction
it actually returns spends the outgoing outpoint exactly once among its
inputs, and the output whose cumulative value range contains the outgoing
satoshi's cumulative input offset pays the recipient's script (the
`sat_offset_scan` / `output_scan` conditions below). -/
theorem C1_returned_transactions_satisfy_invariants (env : Env) (outgoing : SatPoint)
    (inscriptions : List (SatPoint × Nat)) (amounts : List (Nat × Nat))
    (locked runic : List Nat) (recipient change : Nat) (target : Target)
    (tx : Transaction)
    (h : (TransactionBuilder.new outgoing inscriptions amounts locked runic recipient
        change target).build_transaction env = .ok tx) :
    (tx.input.filter (fun i => i == outgoing.outpoint)).length = 1 ∧
    ∃ so, sat_offset_scan amounts outgoing tx.input 0 = .ok so ∧
      output_scan (env.spk recipient) so tx.output 0 = .ok () := by
  obtain ⟨b6, hsc, hb⟩ := build_transaction_ok_inv env _ tx h
  obtain ⟨ham, hout, hrec, htar⟩ := hsc
  obtain ⟨htx, hfil, ⟨so, hso, hos⟩, hpc, hdc⟩ := build_ok_inv env b6 tx hb
  refine ⟨?_, so, ?_, ?_⟩
  · rw [hout] at hfil
    exact hfil
  · rw [ham, hout] at hso
    exact hso
  · rw [hrec] at hos
    exact hos

/-- Witness for C1 at a concrete input: a successful build whose returned
transaction spends the outgoing outpoint once and pays the recipient at
the covering output. -/
theorem C1_witness :
    (TransactionBuilder.new ⟨0, 0⟩ [] [(0, 1500)] [] [] 1 2
        (Target.Value 1000)).build_transaction env0 =
      .ok ⟨2, 0, [0], [(1000, 1), (500, 2), (0, 999)]⟩ ∧
    ((([0] : List Nat)).filter (fun i => i == (0 : Nat))).length = 1 ∧
    (∃ so, sat_offset_scan [(0, 1500)] ⟨0, 0⟩ [0] 0 = .ok so ∧
      output_scan (env0.spk 1) so [(1000, 1), (500, 2), (0, 999)] 0 = .ok ()) :=
  ⟨rfl,
   C1_returned_transactions_satisfy_invariants env0 ⟨0, 0⟩ [] [(0, 1500)] [] [] 1 2
     (Target.Value 1000) ⟨2, 0, [0], [(1000, 1), (500, 2), (0, 999)]⟩ rfl⟩

/-- C5: for every transaction returned by `build_transaction`, every
output — including the appended zero-value OP_RETURN marker output, which
is the last output — has value at least the dust threshold of its own
script. -/
theorem C5_all_outputs_meet_own_dust (env : Env) (outgoing : SatPoint)
    (inscriptions : List (SatPoint × Nat)) (amounts : List (Nat × Nat))
    (locked runic : List Nat) (recipient change : Nat) (target : Target)
    (tx : Transaction)
    (h : (TransactionBuilder.new outgoing inscriptions amounts locked runic recipient
        change target).build_transaction env = .ok tx) :
    (∀ p ∈ tx.output, env.dust_value p.2 ≤ p.1) ∧
    tx.output.getLast? = some (0, env.op_return_script) := by
  obtain ⟨b6, hsc, hb⟩ := build_transaction_ok_inv env _ tx h
  obtain ⟨htx, hfil, hex, hpc, hdc⟩ := build_ok_inv env b6 tx hb
  refine ⟨dust_check_sound env tx.output hdc, ?_⟩
  have hto : tx.output = tx_outputs env b6 := by rw [htx]
  rw [hto]
  unfold tx_outputs
  exact List.getLast?_concat _

/-- Witness for C5 at a concrete input: a successful build whose outputs
(1200 to the recipient, 800 change, and the zero-value OP_RETURN marker
with dust threshold zero) all meet their own dust thresholds. -/
theorem C5_witness :
    (TransactionBuilder.new ⟨7, 0⟩ [] [(7, 2000)] [] [] 3 4
        (Target.Value 1200)).build_transaction env0 =
      .ok ⟨2, 0, [7], [(1200, 3), (800, 4), (0, 999)]⟩ ∧
    (∀ p ∈ ([(1200, 3), (800, 4), (0, 999)] : List (Nat × Nat)),
      env0.dust_value p.2 ≤ p.1) ∧
    ([(1200, 3), (800, 4), (0, 999)] : List (Nat × Nat)).getLast? =
      some (0, env0.op_return_script) :=
  ⟨rfl,
   (C5_all_outputs_meet_own_dust env0 ⟨7, 0⟩ [] [(7, 2000)] [] [] 3 4
     (Target.Value 1200) ⟨2, 0, [7], [(1200, 3), (800, 4), (0, 999)]⟩ rfl).1,
   (C5_all_outputs_meet_own_dust env0 ⟨7, 0⟩ [] [(7, 2000)] [] [] 3 4
     (Target.Value 1200) ⟨2, 0, [7], [(1200, 3), (800, 4), (0, 999)]⟩ rfl).2⟩

/-- C6: under `Target::Postage`, every transaction returned by
`build_transaction` has each output paying the recipient's script bounded
by `MAX_POSTAGE` (20,000 sats) plus the fee for one marginal output
(the fee rate applied to `ADDITIONAL_OUTPUT_VBYTES = 43` vbytes). -/
theorem C6_postage_ceiling (env : Env) (outgoing : SatPoint)
    (inscriptions : List (SatPoint × Nat)) (amounts : List (Nat × Nat))
    (locked runic : List Nat) (recipient change : Nat) (target : Target)
    (tx : Transaction) (htar : target = Target.Postage)
    (h : (TransactionBuilder.new outgoing inscriptions amounts locked runic recipient
        change target).build_transaction env = .ok tx) :
    ∀ p ∈ tx.output, p.2 = env.spk recipient →
      p.1 ≤ TransactionBuilder.MAX_POSTAGE +
        env.fee TransactionBuilder.ADDITIONAL_OUTPUT_VBYTES := by
  obtain ⟨b6, hsc, hb⟩ := build_transaction_ok_inv env _ tx h
  obtain ⟨ham, hout, hrec, htar6⟩ := hsc
  obtain ⟨htx, hfil, hex, hpc, hdc⟩ := build_ok_inv env b6 tx hb
  have hbt : b6.target = Target.Postage := by
    rw [htar6]
    exact htar
  rw [hbt, hrec] at hpc
  intro p hp hps
  exact postage_check_sound_postage env (env.spk recipient) tx.output hpc p hp hps

/-- Witness for C6 at a concrete input: a successful `Target::Postage`
build whose recipient output of 1500 sats is within the 20,000-sat
ceiling. -/
theorem C6_witness :
    (TransactionBuilder.new ⟨5, 0⟩ [] [(5, 1500)] [] [] 1 2
        Target.Postage).build_transaction env0 =
      .ok ⟨2, 0, [5], [(1500, 1), (0, 999)]⟩ ∧
    (∀ p ∈ ([(1500, 1), (0, 999)] : List (Nat × Nat)), p.2 = env0.spk 1 →
      p.1 ≤ TransactionBuilder.MAX_POSTAGE +
        env0.fee TransactionBuilder.ADDITIONAL_OUTPUT_VBYTES) :=
  ⟨rfl,
   C6_postage_ceiling env0 ⟨5, 0⟩ [] [(5, 1500)] [] [] 1 2 Target.Postage
     ⟨2, 0, [5], [(1500, 1), (0, 999)]⟩ rfl rfl⟩

theorem align_outgoing_after_select (b : TransactionBuilder) (amount c : Nat)
    (hout : b.outputs = [(b.recipient, amount)])
    (hin : b.inputs = [b.outgoing.outpoint])
    (hq : b.unused_change_addresses = [c])
    (hoff : b.outgoing.offset ≠ 0) (hlt : b.outgoing.offset < U64LIMIT)
    (hlta : b.outgoing.offset < amount) :
    b.align_outgoing = .ok { b with
      outputs := [(c, b.outgoing.offset), (b.recipient, amount - b.outgoing.offset)],
      unused_change_addresses := ([c] : List Nat).dropLast } := by
  have hcso : b.calculate_sat_offset = .ok b.outgoing.offset := by
    unfold TransactionBuilder.calculate_sat_offset
    rw [hin, sat_offset_scan, if_pos rfl]
    simp [Nat.mod_eq_of_lt hlt]
  unfold TransactionBuilder.align_outgoing
  rw [hout]
  rw [if_neg (by simp)]
  rw [if_neg (by simp)]
  rw [hcso, res_bind_ok_left, if_neg hoff, hq]
  rw [show (([c] : List Nat).getLast?) = some c from rfl]
  dsimp only
  rw [show (((c, b.outgoing.offset) :: [(b.recipient, amount)]).getLast?)
        = some (b.recipient, amount) from rfl]
  dsimp only
  rw [amt_sub, if_pos (Nat.le_of_lt hlta), res_bind_ok_left]
  rfl

theorem pad_alignment_output_skips (env : Env) (b : TransactionBuilder) (p : Nat × Nat)
    (rest : List (Nat × Nat)) (hout : b.outputs = p :: rest) (hrec : p.1 = b.recipient) :
    b.pad_alignment_output env = .ok b := by
  unfold TransactionBuilder.pad_alignment_output
  rw [hout, List.head?_cons]
  dsimp only
  rw [if_pos hrec]

theorem pad_alignment_output_crashes (env : Env) (b : TransactionBuilder) (p : Nat × Nat)
    (rest : List (Nat × Nat)) (hout : b.outputs = p :: rest) (hrec : p.1 ≠ b.recipient)
    (hq : b.unused_change_addresses = []) :
    b.pad_alignment_output env = .error .crashed := by
  unfold TransactionBuilder.pad_alignment_output
  rw [hout, List.head?_cons]
  dsimp only
  rw [if_neg hrec, hq]
  rfl

theorem align_pad_after_select (env : Env) (outgoing : SatPoint)
    (inscriptions : List (SatPoint × Nat)) (amounts : List (Nat × Nat))
    (locked runic : List Nat) (recipient change : Nat) (target : Target)
    (b1 : TransactionBuilder)
    (hoff : outgoing.offset ≠ 0) (hlt : outgoing.offset < U64LIMIT)
    (hsel : (TransactionBuilder.new outgoing inscriptions amounts locked runic recipient
        change target).select_outgoing env = .ok b1) :
    ∃ amount b2,
      lookupAmt amounts outgoing.outpoint = some amount ∧
      outgoing.offset < amount ∧
      b1.align_outgoing = .ok b2 ∧
      b2.outputs = [(change, outgoing.offset), (recipient, amount - outgoing.offset)] ∧
      b2.unused_change_addresses = [] ∧
      b2.pad_alignment_output env =
        (if change = recipient then .ok b2 else .error .crashed) := by
  obtain ⟨amount, hla, hofflt, hb1⟩ := select_outgoing_ok_inv env _ b1 hsel
  subst hb1
  refine ⟨amount, _, hla, hofflt,
    align_outgoing_after_select _ amount change (by rfl) (by rfl) (by rfl) hoff hlt hofflt,
    (by rfl), (by rfl), ?_⟩
  by_cases hcr : change = recipient
  · rw [if_pos hcr]
    exact pad_alignment_output_skips env _ (change, outgoing.offset) _ (by rfl) hcr
  · rw [if_neg hcr]
    exact pad_alignment_output_crashes env _ (change, outgoing.offset) _ (by rfl) hcr (by rfl)

/-- C2 counterexample: the claim's dust-padding loop never runs.  At this
concrete input the outgoing satpoint has nonzero offset 5, the padding
output of 5 sats is far below the change script's dust threshold of 330,
and a spare 600-sat cardinal UTXO is available, yet `build_transaction`
panics on the exhausted change-address queue instead of padding with
cardinal inputs and ending in a transaction or a typed error. -/
theorem C2_counterexample :
    (TransactionBuilder.new ⟨10, 5⟩ [] [(10, 10000), (11, 600)] [] [] 1 2
        Target.Postage).build_transaction env0 = .error .crashed := rfl

/-- C2 (amended): for every input whose outgoing satpoint has a nonzero
offset (below `2 ^ 64`) and for which `select_outgoing` succeeds,
`align_outgoing` inserts a leading padding output paying the change
address exactly the computed sat offset and decrements the recipient
output by the same amount; but `pad_alignment_output` then panics on the
empty change-address queue whenever the change address differs from the
recipient, and performs no padding at all when it equals the recipient
(the padding output is then mistaken for the recipient output), so the
pipeline continues past this stage only in the latter case and the
dust-padding loop is unreachable. -/
theorem C2_align_inserts_padding_but_pad_is_dead (env : Env) (outgoing : SatPoint)
    (inscriptions : List (SatPoint × Nat)) (amounts : List (Nat × Nat))
    (locked runic : List Nat) (recipient change : Nat) (target : Target)
    (b1 : TransactionBuilder)
    (hoff : outgoing.offset ≠ 0) (hlt : outgoing.offset < U64LIMIT)
    (hsel : (TransactionBuilder.new outgoing inscriptions amounts locked runic recipient
        change target).select_outgoing env = .ok b1) :
    ∃ amount b2,
      lookupAmt amounts outgoing.outpoint = some amount ∧
      outgoing.offset < amount ∧
      b1.align_outgoing = .ok b2 ∧
      b2.outputs = [(change, outgoing.offset), (recipient, amount - outgoing.offset)] ∧
      b2.unused_change_addresses = [] ∧
      b2.pad_alignment_output env =
        (if change = recipient then .ok b2 else .error .crashed) :=
  align_pad_after_select env outgoing inscriptions amounts locked runic recipient change
    target b1 hoff hlt hsel

/-- Witness for C2 at the spec's scenario: offset 500 inside a 10,000-sat
UTXO.  The padding output of exactly 500 sats is inserted ahead of the
recipient output, whose value drops to 9,500. -/
theorem C2_witness :
    ∃ amount b2,
      lookupAmt [(20, 10000)] 20 = some amount ∧
      (500 : Nat) < amount ∧
      TransactionBuilder.align_outgoing
        { TransactionBuilder.new ⟨20, 500⟩ [] [(20, 10000)] [] [] 1 2 Target.Postage with
          utxos := ([] : List Nat), inputs := [20], outputs := [(1, 10000)] } = .ok b2 ∧
      b2.outputs = [(2, 500), (1, amount - 500)] ∧
      b2.unused_change_addresses = [] ∧
      b2.pad_alignment_output env0 = (if (2 : Nat) = 1 then .ok b2 else .error .crashed) :=
  C2_align_inserts_padding_but_pad_is_dead env0 ⟨20, 500⟩ [] [(20, 10000)] [] [] 1 2
    Target.Postage
    { TransactionBuilder.new ⟨20, 500⟩ [] [(20, 10000)] [] [] 1 2 Target.Postage with
      utxos := ([] : List Nat), inputs := [20], outputs := [(1, 10000)] }
    (by decide) (by decide) rfl

/-- C3 counterexample: the claim quantifies over every input with nonzero
offset and change ≠ recipient, but an input whose outgoing outpoint is not
in the wallet returns the typed `NotInWallet` error rather than
panicking. -/
theorem C3_counterexample :
    (TransactionBuilder.new ⟨0, 7⟩ [] [] [] [] 1 2
        Target.Postage).build_transaction env0 =
      .error (.err (.NotInWallet ⟨0, 7⟩)) := rfl

/-- C3 (amended): the change-address queue of a fresh builder holds
exactly the one supplied change address, and for every input whose
outgoing satpoint offset is nonzero (below `2 ^ 64`), whose change address
differs from the recipient, which passes the up-front dust precheck and
whose `select_outgoing` succeeds, `build_transaction` panics —
`align_outgoing` pops the only change address and `pad_alignment_output`
then reads the last element of the now-empty queue — instead of returning
either a transaction or a typed error. -/
theorem C3_nonzero_offset_distinct_change_panics (env : Env) (outgoing : SatPoint)
    (inscriptions : List (SatPoint × Nat)) (amounts : List (Nat × Nat))
    (locked runic : List Nat) (recipient change : Nat) (target : Target)
    (hoff : outgoing.offset ≠ 0) (hlt : outgoing.offset < U64LIMIT)
    (hne : change ≠ recipient)
    (hpre : dust_precheck env (TransactionBuilder.new outgoing inscriptions amounts
        locked runic recipient change target) = .ok ())
    (hsel : ∃ b1, (TransactionBuilder.new outgoing inscriptions amounts locked runic
        recipient change target).select_outgoing env = .ok b1) :
    (TransactionBuilder.new outgoing inscriptions amounts locked runic recipient change
        target).unused_change_addresses = [change] ∧
    (TransactionBuilder.new outgoing inscriptions amounts locked runic recipient change
        target).build_transaction env = .error .crashed := by
  refine ⟨rfl, ?_⟩
  obtain ⟨b1, hsel1⟩ := hsel
  obtain ⟨amount, b2, hla, hofflt, halign, hb2out, hb2q, hpad⟩ :=
    align_pad_after_select env outgoing inscriptions amounts locked runic recipient
      change target b1 hoff hlt hsel1
  rw [if_neg hne] at hpad
  unfold TransactionBuilder.build_transaction
  rw [hpre, res_bind_ok_left, hsel1, res_bind_ok_left, halign, res_bind_ok_left, hpad,
    res_bind_error]

/-- Witness for C3 at a concrete input: outgoing offset 7 inside a
5,000-sat UTXO, recipient 1, change 2 — the build panics. -/
theorem C3_witness :
    (TransactionBuilder.new ⟨30, 7⟩ [] [(30, 5000)] [] [] 1 2
        Target.Postage).unused_change_addresses = [2] ∧
    (TransactionBuilder.new ⟨30, 7⟩ [] [(30, 5000)] [] [] 1 2
        Target.Postage).build_transaction env0 = .error .crashed :=
  C3_nonzero_offset_distinct_change_panics env0 ⟨30, 7⟩ [] [(30, 5000)] [] [] 1 2
    Target.Postage (by decide) (by decide) (by decide) rfl
    ⟨{ TransactionBuilder.new ⟨30, 7⟩ [] [(30, 5000)] [] [] 1 2 Target.Postage with
       utxos := ([] : List Nat), inputs := [30], outputs := [(1, 5000)] }, rfl⟩

/-- True unless the result is a typed `DuplicateAddress` error. -/
def not_duplicate_address {α : Type} : Res α → Bool
  | .error (.err (.DuplicateAddress _)) => false
  | _ => true

/-- True unless the error is the `DuplicateAddress` variant. -/
def error_not_duplicate_address : Error → Bool
  | .DuplicateAddress _ => false
  | _ => true

/-- Whether a `Failure` is a typed `DuplicateAddress` error, used to move
`not_duplicate_address` facts between result types. -/
def failure_not_duplicate_address : Failure → Bool
  | .err (.DuplicateAddress _) => false
  | _ => true

theorem not_dup_error_eq {α : Type} (e : Failure) :
    not_duplicate_address (.error e : Res α) = failure_not_duplicate_address e := by
  cases e with
  | err e' => cases e' <;> rfl
  | crashed => rfl

theorem not_dup_bind {α β : Type} {x : Res α} {f : α → Res β}
    (hx : not_duplicate_address x = true)
    (hf : ∀ a, not_duplicate_address (f a) = true) :
    not_duplicate_address (x >>= f) = true := by
  cases x with
  | error e =>
      rw [res_bind_error, not_dup_error_eq]
      rw [not_dup_error_eq] at hx
      exact hx
  | ok a => rw [res_bind_ok_left]; exact hf a

theorem amt_add_not_dup (a b : Nat) : not_duplicate_address (amt_add a b) = true := by
  unfold amt_add
  split <;> rfl

theorem amt_sub_not_dup (a b : Nat) : not_duplicate_address (amt_sub a b) = true := by
  unfold amt_sub
  split <;> rfl

theorem amt_sum_not_dup (l : List Nat) : not_duplicate_address (amt_sum l) = true := by
  unfold amt_sum
  split <;> rfl

theorem add_to_last_not_dup (outs : List (Nat × Nat)) (v : Nat) :
    not_duplicate_address (add_to_last outs v) = true := by
  unfold add_to_last
  split
  · rfl
  · exact not_dup_bind (amt_add_not_dup _ _) (fun _ => rfl)

theorem sat_offset_scan_not_dup (amounts : List (Nat × Nat)) (outgoing : SatPoint) :
    ∀ (l : List Nat) (acc : Nat),
      not_duplicate_address (sat_offset_scan amounts outgoing l acc) = true := by
  intro l
  induction l with
  | nil => intro acc; rfl
  | cons i rest ih =>
      intro acc
      rw [sat_offset_scan]
      split
      · rfl
      · split
        · rfl
        · exact ih _

theorem scan_utxos_not_dup (b : TransactionBuilder) (pu : Bool) (t : Nat) :
    ∀ (l : List Nat) (best : Option (Nat × Nat)),
      not_duplicate_address (scan_utxos b pu t l best) = true := by
  intro l
  induction l with
  | nil => intro best; rfl
  | cons u rest ih =>
      intro best
      rw [scan_utxos]
      split
      · exact ih best
      · split
        · rfl
        · exact ih _

theorem select_cardinal_utxo_not_dup (b : TransactionBuilder) (t : Nat) (pu : Bool) :
    not_duplicate_address (b.select_cardinal_utxo t pu) = true := by
  unfold TransactionBuilder.select_cardinal_utxo
  refine not_dup_bind (scan_utxos_not_dup b pu t b.utxos none) (fun best => ?_)
  cases best <;> rfl

theorem pad_loop_not_dup (dl : Nat) (b : TransactionBuilder) :
    not_duplicate_address (pad_loop dl b) = true := by
  induction b using pad_loop.induct dl with
  | case1 x hx =>
      rw [pad_loop, hx]
      rfl
  | case2 x p0 rest hx hlt e hsel =>
      rw [pad_loop, hx]
      dsimp only
      rw [if_pos hlt]
      split
      · rename_i e' heq
        have hnd := select_cardinal_utxo_not_dup x (dl - p0.2) true
        rw [heq, not_dup_error_eq] at hnd
        rw [not_dup_error_eq]
        exact hnd
      · rename_i r' heq
        rw [hsel] at heq
        exact Except.noConfusion heq
  | case3 x p0 rest hx hlt r hsel e hadd =>
      rw [pad_loop, hx]
      dsimp only
      rw [if_pos hlt]
      split
      · rename_i e' heq
        have hnd := select_cardinal_utxo_not_dup x (dl - p0.2) true
        rw [heq, not_dup_error_eq] at hnd
        rw [not_dup_error_eq]
        exact hnd
      · rename_i r' heq
        rw [hsel] at heq
        cases Except.ok.inj heq
        split
        · rename_i e2 heq2
          have hnd := amt_add_not_dup p0.2 r.2.2
          rw [heq2, not_dup_error_eq] at hnd
          rw [not_dup_error_eq]
          exact hnd
        · rename_i v0' heq2
          rw [hadd] at heq2
          exact Except.noConfusion heq2
  | case4 x p0 rest hx hlt r hsel v0' hadd ih =>
      rw [pad_loop, hx]
      dsimp only
      rw [if_pos hlt]
      split
      · rename_i e' heq
        have hnd := select_cardinal_utxo_not_dup x (dl - p0.2) true
        rw [heq, not_dup_error_eq] at hnd
        rw [not_dup_error_eq]
        exact hnd
      · rename_i r' heq
        rw [hsel] at heq
        cases Except.ok.inj heq
        split
        · rename_i e2 heq2
          have hnd := amt_add_not_dup p0.2 r.2.2
          rw [heq2, not_dup_error_eq] at hnd
          rw [not_dup_error_eq]
          exact hnd
        · rename_i v0'' heq2
          rw [hadd] at heq2
          cases Except.ok.inj heq2
          exact ih
  | case5 x p0 rest hx hlt =>
      rw [pad_loop, hx]
      dsimp only
      rw [if_neg hlt]
      rfl

theorem add_value_loop_not_dup (env : Env) (b : TransactionBuilder) (deficit : Nat) :
    not_duplicate_address (add_value_loop env b deficit) = true := by
  induction b, deficit using add_value_loop.induct env with
  | case1 x =>
      rw [add_value_loop, if_pos rfl]
      rfl
  | case2 x deficit hne hca =>
      rw [add_value_loop, if_neg hne]
      simp only [hca]
      rfl
  | case3 x deficit hne v hca e hsel =>
      rw [add_value_loop, if_neg hne]
      simp only [hca]
      split
      · rename_i e' heq
        have hnd := select_cardinal_utxo_not_dup x v false
        rw [heq, not_dup_error_eq] at hnd
        rw [not_dup_error_eq]
        exact hnd
      · rename_i r' heq
        rw [hsel] at heq
        exact Except.noConfusion heq
  | case4 x deficit hne v hca r hsel hcs =>
      rw [add_value_loop, if_neg hne]
      simp only [hca]
      split
      · rename_i e' heq
        have hnd := select_cardinal_utxo_not_dup x v false
        rw [heq, not_dup_error_eq] at hnd
        rw [not_dup_error_eq]
        exact hnd
      · rename_i r' heq
        rw [hsel] at heq
        cases Except.ok.inj heq
        simp only [hcs]
        rfl
  | case5 x deficit hne v hca r hsel benefit hcs e hatl =>
      rw [add_value_loop, if_neg hne]
      simp only [hca]
      split
      · rename_i e' heq
        have hnd := select_cardinal_utxo_not_dup x v false
        rw [heq, not_dup_error_eq] at hnd
        rw [not_dup_error_eq]
        exact hnd
      · rename_i r' heq
        rw [hsel] at heq
        cases Except.ok.inj heq
        simp only [hcs]
        split
        · rename_i e2 heq2
          have hnd := add_to_last_not_dup r.1.outputs r.2.2
          rw [heq2, not_dup_error_eq] at hnd
          rw [not_dup_error_eq]
          exact hnd
        · rename_i o2 heq2
          rw [hatl] at heq2
          exact Except.noConfusion heq2
  | case6 x deficit hne v hca r hsel benefit hcs outputs' hatl hlt ih =>
      rw [add_value_loop, if_neg hne]
      simp only [hca]
      split
      · rename_i e' heq
        have hnd := select_cardinal_utxo_not_dup x v false
        rw [heq, not_dup_error_eq] at hnd
        rw [not_dup_error_eq]
        exact hnd
      · rename_i r' heq
        rw [hsel] at heq
        cases Except.ok.inj heq
        simp only [hcs]
        split
        · rename_i e2 heq2
          have hnd := add_to_last_not_dup r.1.outputs r.2.2
          rw [heq2, not_dup_error_eq] at hnd
          rw [not_dup_error_eq]
          exact hnd
        · rename_i o2 heq2
          rw [hatl] at heq2
          cases Except.ok.inj heq2
          rw [if_pos hlt]
          exact ih
  | case7 x deficit hne v hca r hsel benefit hcs outputs' hatl hlt ih =>
      rw [add_value_loop, if_neg hne]
      simp only [hca]
      split
      · rename_i e' heq
        have hnd := select_cardinal_utxo_not_dup x v false
        rw [heq, not_dup_error_eq] at hnd
        rw [not_dup_error_eq]
        exact hnd
      · rename_i r' heq
        rw [hsel] at heq
        cases Except.ok.inj heq
        simp only [hcs]
        split
        · rename_i e2 heq2
          have hnd := add_to_last_not_dup r.1.outputs r.2.2
          rw [heq2, not_dup_error_eq] at hnd
          rw [not_dup_error_eq]
          exact hnd
        · rename_i o2 heq2
          rw [hatl] at heq2
          cases Except.ok.inj heq2
          rw [if_neg hlt]
          exact ih

theorem select_outgoing_not_dup (env : Env) (b : TransactionBuilder) :
    not_duplicate_address (b.select_outgoing env) = true := by
  unfold TransactionBuilder.select_outgoing
  split
  · rfl
  · split
    · rfl
    · split
      · rfl
      · split
        · rfl
        · rfl

theorem align_outgoing_not_dup (b : TransactionBuilder) :
    not_duplicate_address b.align_outgoing = true := by
  unfold TransactionBuilder.align_outgoing
  split
  · rfl
  · split
    · rfl
    · refine not_dup_bind (sat_offset_scan_not_dup _ _ _ _) (fun so => ?_)
      split
      · rfl
      · split
        · rfl
        · split
          · rfl
          · exact not_dup_bind (amt_sub_not_dup _ _) (fun _ => rfl)

theorem pad_alignment_output_not_dup (env : Env) (b : TransactionBuilder) :
    not_duplicate_address (b.pad_alignment_output env) = true := by
  unfold TransactionBuilder.pad_alignment_output
  split
  · rfl
  · split
    · rfl
    · split
      · rfl
      · exact pad_loop_not_dup _ b

theorem add_value_not_dup (env : Env) (b : TransactionBuilder) :
    not_duplicate_address (b.add_value env) = true := by
  unfold TransactionBuilder.add_value
  split
  · rfl
  · split
    · rfl
    · split
      · rfl
      · exact add_value_loop_not_dup env b _

theorem strip_value_not_dup (env : Env) (b : TransactionBuilder) :
    not_duplicate_address (b.strip_value env) = true := by
  unfold TransactionBuilder.strip_value
  refine not_dup_bind (sat_offset_scan_not_dup _ _ _ _) (fun so => ?_)
  refine not_dup_bind (amt_sum_not_dup _) (fun tot => ?_)
  split
  · rfl
  · refine not_dup_bind (amt_sub_not_dup _ _) (fun val => ?_)
    split
    · rfl
    · split
      · split
        · rfl
        · split
          · rfl
          · refine not_dup_bind (amt_add_not_dup _ _) (fun thr => ?_)
            split
            · split
              · rfl
              · rfl
            · rfl
      · rfl

theorem deduct_fee_not_dup (env : Env) (b : TransactionBuilder) :
    not_duplicate_address (b.deduct_fee env) = true := by
  unfold TransactionBuilder.deduct_fee
  refine not_dup_bind (sat_offset_scan_not_dup _ _ _ _) (fun so => ?_)
  refine not_dup_bind (amt_sum_not_dup _) (fun tot => ?_)
  split
  · rfl
  · split
    · rfl
    · split
      · rfl
      · split
        · rfl
        · rfl

theorem output_scan_not_dup (rs so : Nat) : ∀ (l : List (Nat × Nat)) (acc : Nat),
    not_duplicate_address (output_scan rs so l acc) = true := by
  intro l
  induction l with
  | nil => intro acc; rfl
  | cons p rest ih =>
      intro acc
      rw [output_scan]
      split
      · split
        · rfl
        · rfl
      · exact ih _

theorem postage_check_not_dup (env : Env) (target : Target) (rs : Nat) :
    ∀ (l : List (Nat × Nat)),
      not_duplicate_address (postage_check env target rs l) = true := by
  intro l
  induction l with
  | nil => rfl
  | cons p rest ih =>
      rw [postage_check.eq_def]
      dsimp only
      split
      · split
        · exact not_dup_bind (amt_add_not_dup _ _)
            (fun lim => by split <;> first | exact ih | rfl)
        · exact not_dup_bind (amt_add_not_dup _ _)
            (fun lim => by split <;> first | exact ih | rfl)
        · exact ih
      · exact ih

theorem actual_fee_inputs_not_dup (amounts : List (Nat × Nat)) :
    ∀ (l : List Nat) (acc : Nat),
      not_duplicate_address (actual_fee_inputs amounts l acc) = true := by
  intro l
  induction l with
  | nil => intro acc; rfl
  | cons i rest ih =>
      intro acc
      rw [actual_fee_inputs]
      split
      · rfl
      · exact not_dup_bind (amt_add_not_dup _ _) (fun acc' => ih acc')

theorem actual_fee_outputs_not_dup : ∀ (l : List (Nat × Nat)) (acc : Nat),
    not_duplicate_address (actual_fee_outputs l acc) = true := by
  intro l
  induction l with
  | nil => intro acc; rfl
  | cons p rest ih =>
      intro acc
      rw [actual_fee_outputs]
      exact not_dup_bind (amt_sub_not_dup _ _) (fun acc' => ih acc')

theorem dust_check_not_dup (env : Env) : ∀ (l : List (Nat × Nat)),
    not_duplicate_address (dust_check env l) = true := by
  intro l
  induction l with
  | nil => rfl
  | cons p rest ih =>
      rw [dust_check]
      split
      · exact ih
      · rfl

theorem build_not_dup (env : Env) (b : TransactionBuilder) :
    not_duplicate_address (b.build env) = true := by
  unfold TransactionBuilder.build
  split
  · rfl
  · split
    · rfl
    · refine not_dup_bind (sat_offset_scan_not_dup _ _ _ _) (fun so => ?_)
      refine not_dup_bind (output_scan_not_dup _ _ _ _) (fun _ => ?_)
      refine not_dup_bind (postage_check_not_dup _ _ _ _) (fun _ => ?_)
      refine not_dup_bind (actual_fee_inputs_not_dup _ _ _) (fun fin => ?_)
      refine not_dup_bind (actual_fee_outputs_not_dup _ _) (fun _ => ?_)
      exact not_dup_bind (dust_check_not_dup _ _) (fun _ => rfl)

theorem dust_precheck_not_dup (env : Env) (b : TransactionBuilder) :
    not_duplicate_address (dust_precheck env b) = true := by
  unfold dust_precheck
  split
  · split
    · rfl
    · rfl
  · split
    · rfl
    · rfl
  · rfl

theorem build_transaction_not_dup (env : Env) (b : TransactionBuilder) :
    not_duplicate_address (b.build_transaction env) = true := by
  unfold TransactionBuilder.build_transaction
  refine not_dup_bind (dust_precheck_not_dup env b) (fun _ => ?_)
  refine not_dup_bind (select_outgoing_not_dup env b) (fun b1 => ?_)
  refine not_dup_bind (align_outgoing_not_dup b1) (fun b2 => ?_)
  refine not_dup_bind (pad_alignment_output_not_dup env b2) (fun b3 => ?_)
  refine not_dup_bind (add_value_not_dup env b3) (fun b4 => ?_)
  refine not_dup_bind (strip_value_not_dup env b4) (fun b5 => ?_)
  refine not_dup_bind (deduct_fee_not_dup env b5) (fun b6 => ?_)
  exact build_not_dup env b6

/-- The claim C10 as stated: some input makes `build_transaction` return
the `DuplicateAddress` error. -/
def build_transaction_can_return_duplicate_address : Prop :=
  ∃ (env : Env) (b : TransactionBuilder) (a : Nat),
    b.build_transaction env = .error (.err (.DuplicateAddress a))

/-- C10 counterexample: the negation of the claim as stated — no
environment and builder state makes `build_transaction` return a
`DuplicateAddress` error, since no stage of the pipeline ever constructs
that variant. -/
theorem C10_counterexample : ¬ build_transaction_can_return_duplicate_address := by
  rintro ⟨env, b, a, h⟩
  have hnd := build_transaction_not_dup env b
  rw [h, not_dup_error_eq] at hnd
  exact Bool.noConfusion hnd

/-- C10 (amended): `DuplicateAddress` is declared in the error taxonomy
(and rendered by its `Display` impl) but is dead: no stage of
`build_transaction` ever returns it, so every typed error the pipeline
returns is one of the other variants. -/
theorem C10_duplicate_address_is_dead (env : Env) (b : TransactionBuilder)
    (e : Error) (h : b.build_transaction env = .error (.err e)) :
    error_not_duplicate_address e = true := by
  have hnd := build_transaction_not_dup env b
  rw [h, not_dup_error_eq] at hnd
  cases e <;> first | rfl | exact Bool.noConfusion hnd

/-- Witness for C10 at a concrete input: a `NotInWallet` run, whose typed
error is indeed not `DuplicateAddress`. -/
theorem C10_witness :
    (TransactionBuilder.new ⟨40, 0⟩ [] [] [] [] 1 2
        Target.Postage).build_transaction env0 = .error (.err (.NotInWallet ⟨40, 0⟩)) ∧
    error_not_duplicate_address (.NotInWallet ⟨40, 0⟩) = true :=
  ⟨rfl, C10_duplicate_address_is_dead env0
    (TransactionBuilder.new ⟨40, 0⟩ [] [] [] [] 1 2 Target.Postage)
    (.NotInWallet ⟨40, 0⟩) rfl⟩
